import Mathlib

/-!
Verification development for the dlvideo repository.

The repository snapshot contains the React frontend
(`frontend/src/pages/HomePage.js`, `frontend/src/pages/AudioEditor.js`, ...).
The backend core described by the specification (`backend/server.py`: Task
Registry, Download Executor, Audio Edit Compiler, Process Runner, Cleanup
Manager) is referenced by the repository's deployment scripts and docs but its
source is not part of the snapshot; those components are modelled here from
the specification text and marked as such in their doc comments.

Frontend code is embedded directly from the JavaScript source.
-/

namespace DLVideo

/-! ## Frontend: filename sanitization (HomePage.js, `handleDownload`, lines 159-177) -/

namespace HomePage

/-- Character class of the JavaScript regex `\s` and of `String.prototype.trim`
(ECMA-262 WhiteSpace together with LineTerminator code points). -/
def isJsWhitespace (c : Char) : Bool :=
  c.toNat = 0x9 || c.toNat = 0xa || c.toNat = 0xb || c.toNat = 0xc || c.toNat = 0xd ||
  c.toNat = 0x20 || c.toNat = 0xa0 || c.toNat = 0x1680 ||
  (0x2000 ≤ c.toNat && c.toNat ≤ 0x200a) ||
  c.toNat = 0x2028 || c.toNat = 0x2029 || c.toNat = 0x202f || c.toNat = 0x205f ||
  c.toNat = 0x3000 || c.toNat = 0xfeff

/-- Character class of the JavaScript regex `[a-zA-Z0-9]`. -/
def isAsciiAlnum (c : Char) : Bool :=
  ('a' ≤ c && c ≤ 'z') || ('A' ≤ c && c ≤ 'Z') || ('0' ≤ c && c ≤ '9')

/-- Character class of `[̀-ͯ]` (combining diacritical marks),
removed by `.replace(/[̀-ͯ]/g, '')` in HomePage.js line 163. -/
def isCombiningMark (c : Char) : Bool :=
  0x300 ≤ c.toNat && c.toNat ≤ 0x36f

/-- Embedding of `.replace(/đ/g, 'd').replace(/Đ/g, 'D')` from HomePage.js line 164, as a
per-character map (both pattern and replacement are single code points). -/
def replaceDStroke (c : Char) : Char :=
  if c = 'đ' then 'd' else if c = 'Đ' then 'D' else c

/-- JS `String.prototype.trim()`: strip leading and trailing whitespace. -/
def jsTrim (l : List Char) : List Char :=
  ((l.dropWhile isJsWhitespace).reverse.dropWhile isJsWhitespace).reverse

/-- Embedding of `.replace(/\s+/g, '_')` from HomePage.js line 167: every maximal run of
whitespace characters is replaced by a single underscore. -/
def collapseWhitespace : List Char → List Char
  | [] => []
  | [c] => if isJsWhitespace c then ['_'] else [c]
  | c :: d :: rest =>
    if isJsWhitespace c then
      if isJsWhitespace d then collapseWhitespace (d :: rest)
      else '_' :: collapseWhitespace (d :: rest)
    else c :: collapseWhitespace (d :: rest)

/-- The `cleanTitle` pipeline of HomePage.js lines 160-169.  The Unicode NFD
normalizer invoked by `.normalize('NFD')` is a JS-runtime library function, so
it is abstracted as the parameter `nfd`; every property proved below holds for
an arbitrary normalizer.  `.toLowerCase()` is embedded as `Char.toLower`,
which agrees with the JS function on the ASCII-only strings reaching that
stage of the pipeline.  `originalTitle = videoInfo?.title || 'video'` (line
160) maps a falsy (empty) title to `"video"`. -/
def cleanTitle (nfd : String → String) (title : String) : String :=
  let originalTitle := if title = "" then "video" else title
  let normalized := (nfd originalTitle).data
  let noMarks := normalized.filter (fun c => !isCombiningMark c)
  let noDStroke := noMarks.map replaceDStroke
  let alnumWs := noDStroke.filter (fun c => isAsciiAlnum c || isJsWhitespace c)
  let collapsed := collapseWhitespace (jsTrim alnumWs)
  let lowered := collapsed.map Char.toLower
  String.mk (lowered.take 100)

/-- HomePage.js line 171: `downloadFilename` is `cleanTitle` followed by the
file extension when `cleanTitle` is non-empty, otherwise `"video"` followed by
the extension.  This is the extension-free base of that filename; the
extension comes from the backend response, not from the title. -/
def downloadFilenameBase (nfd : String → String) (title : String) : String :=
  let ct := cleanTitle nfd title
  if ct = "" then "video" else ct

/-- The character set the sanitized filename base is claimed to consist of:
lowercase ASCII letters, ASCII digits, and the underscore. -/
def isSafeFilenameChar (c : Char) : Prop :=
  ('a' ≤ c ∧ c ≤ 'z') ∨ ('0' ≤ c ∧ c ≤ '9') ∨ c = '_'

instance (c : Char) : Decidable (isSafeFilenameChar c) := by
  unfold isSafeFilenameChar
  infer_instance

end HomePage

/-! ## Frontend: status-polling loops (HomePage.js lines 107-138,
AudioEditor.js lines 230-256) -/

namespace Polling

/-- One response of the status endpoint, as read by the frontend loops:
`ready` is `status.ready`, `isError` is `status.status === 'error'`,
`errMsg` is `status.error`. -/
structure StatusResp where
  ready : Bool
  isError : Bool
  progress : Nat
  errMsg : String
  deriving DecidableEq

/-- How a polling loop ends: the task became ready at some attempt, the loop
threw the task's error, or the attempt bound was exhausted and the timeout
error was thrown. -/
inductive PollOutcome where
  | becameReady : Nat → PollOutcome
  | errorThrown : String → PollOutcome
  | timeoutThrown : PollOutcome
  deriving DecidableEq

/-- The shared `while (!isReady && attempts < maxAttempts)` loop body of both
frontend polling loops; `statuses i` is the response to the `i`-th poll
(`i ≥ 1`), `fuel` is `maxAttempts - attempts`.  Returns the outcome and the
number of status requests issued. -/
def pollAux (statuses : Nat → StatusResp) : Nat → Nat → PollOutcome × Nat
  | _, 0 => (.timeoutThrown, 0)
  | attempts, fuel + 1 =>
    let a := attempts + 1
    let st := statuses a
    if st.ready then (.becameReady a, 1)
    else if st.isError then (.errorThrown st.errMsg, 1)
    else
      let r := pollAux statuses a fuel
      (r.1, r.2 + 1)

/-- Constant `maxAttempts = 120` in HomePage.js line 109. -/
def downloadMaxAttempts : Nat := 120

/-- Constant `maxAttempts = 60` in AudioEditor.js line 233. -/
def audioMaxAttempts : Nat := 60

/-- Delay before each poll in milliseconds: `setTimeout(resolve, 5000)` in
HomePage.js line 112 and AudioEditor.js line 236. -/
def pollIntervalMs : Nat := 5000

/-- The polling phase of `handleDownload` (HomePage.js lines 107-138). -/
def handleDownloadPoll (statuses : Nat → StatusResp) : PollOutcome × Nat :=
  pollAux statuses 0 downloadMaxAttempts

/-- The polling phase of `handleProcess` (AudioEditor.js lines 230-256). -/
def handleProcessPoll (statuses : Nat → StatusResp) : PollOutcome × Nat :=
  pollAux statuses 0 audioMaxAttempts

end Polling

/-! ## Backend core, modelled from the specification

The backend (`backend/server.py` and helpers: Task Registry, Download
Executor, Audio Edit Compiler, Process Runner, Cleanup Manager) is invoked by
the repository's deployment scripts but its source is not in the snapshot.
The definitions below are modelled from the specification text (spec.md
paragraphs 3, 4.2-4.6, 7).  Time durations and offsets are integers (e.g.
milliseconds), which keeps every comparison kernel-computable. -/

namespace Backend

/-- Modelled from the spec: the error taxonomy of paragraph 7, missing with
`backend/server.py`. -/
inductive ErrKind where
  | unreachableSource
  | invalidSource
  | formatNotFound
  | invalidEditSpec
  | toolFailure
  | timedOut
  | busy
  | notFound
  | ioFailure
  deriving DecidableEq

/-- Modelled from the spec: task status values (paragraph 3, TaskRecord),
missing with `backend/server.py`. -/
inductive Status where
  | queued
  | running
  | ready
  | error
  deriving DecidableEq

/-- Modelled from the spec: the TaskRecord of paragraph 3, missing with
`backend/server.py` (fields not touched by the claims are elided). -/
structure TaskRecord where
  status : Status
  progress : Nat
  message : String
  result : Option String
  errorKind : Option ErrKind
  deriving DecidableEq

/-- Modelled from the spec: `create` inserts status=queued with a fresh id
(paragraph 4.2); this is the freshly created record. -/
def TaskRecord.init : TaskRecord :=
  { status := .queued, progress := 0, message := "", result := none, errorKind := none }

/-- Modelled from the spec: the mutations the single worker owning a task may
perform on its record (paragraphs 4.2 and 4.3), missing with
`backend/server.py`.  `start` is the QUEUED→RUNNING dispatch, `update` a
progress report, `complete`/`fail` the terminal transitions. -/
inductive RegOp where
  | start : RegOp
  | update : Nat → String → RegOp
  | complete : String → RegOp
  | fail : ErrKind → RegOp
  deriving DecidableEq

/-- Modelled from the spec: effect of one worker call on the task record,
missing with `backend/server.py`.  Progress while RUNNING is the Process
Runner progress mapped into 0-90% (paragraph 4.3) and is kept monotone
(paragraph 3); `complete` sets READY with progress 100; `fail` may fire from
QUEUED (validation surfaced as an immediate terminal ERROR, paragraph 7) or
from RUNNING, leaving progress untouched.  A call whose guard fails leaves
the record unchanged. -/
def applyOp (r : TaskRecord) : RegOp → TaskRecord
  | .start => if r.status = .queued then { r with status := .running } else r
  | .update p m =>
    if r.status = .running then { r with progress := max r.progress (min p 90), message := m }
    else r
  | .complete res =>
    if r.status = .running then { r with status := .ready, progress := 100, result := some res }
    else r
  | .fail e =>
    if r.status = .queued ∨ r.status = .running then { r with status := .error, errorKind := some e }
    else r

/-- Record reached from creation after the single writer performed `ops`. -/
def runOps (ops : List RegOp) : TaskRecord :=
  ops.foldl applyOp TaskRecord.init

/-! ### Audio Edit Compiler (spec paragraphs 3 and 4.4) -/

/-- Modelled from the spec: the optional trim window [start, end] of an
AudioEditSpec (paragraph 3), missing with `backend/server.py`. -/
structure TrimWindow where
  start : Int
  stop : Int
  deriving DecidableEq

/-- Modelled from the spec: the optional cut-middle window with optional
crossfade duration (paragraph 3); crossfade 0 means plain concatenation
(paragraph 4.4 step 3). -/
structure CutWindow where
  cutStart : Int
  cutEnd : Int
  crossfade : Int
  deriving DecidableEq

/-- Modelled from the spec: an optional fade (enabled flag plus duration,
paragraph 3). -/
structure FadeSpec where
  enabled : Bool
  duration : Int
  deriving DecidableEq

/-- Modelled from the spec: the AudioEditSpec of paragraph 3, missing with
`backend/server.py`. -/
structure AudioEditSpec where
  codec : String
  bitrate : String
  lossless : Bool
  trim : Option TrimWindow
  fadeIn : FadeSpec
  fadeOut : FadeSpec
  cutMiddle : Option CutWindow
  channels : Nat
  sampleRate : Nat
  volumeGain : Int
  deriving DecidableEq

/-- Modelled from the spec: the MediaAsset of paragraph 3, missing with
`backend/server.py`. -/
structure MediaAsset where
  id : String
  path : String
  duration : Int
  isContainer : Bool
  hasAudioExtraction : Bool
  deriving DecidableEq

/-- Effective trim window: the given one, or the whole asset when absent
(paragraph 4.4 step 2 applies the trim "if present"). -/
def trimBounds (a : MediaAsset) (s : AudioEditSpec) : Int × Int :=
  match s.trim with
  | some t => (t.start, t.stop)
  | none => (0, a.duration)

/-- Length of the trimmed timeline. -/
def trimmedLength (a : MediaAsset) (s : AudioEditSpec) : Int :=
  (trimBounds a s).2 - (trimBounds a s).1

/-- Duration of the final spliced timeline: the trimmed length, less the cut
window, less the crossfade overlap (spec paragraph 8, Scenario B: output
duration is the trimmed length minus the cut, adjusted by the crossfade
overlap). -/
def finalDuration (a : MediaAsset) (s : AudioEditSpec) : Int :=
  match s.cutMiddle with
  | some c => trimmedLength a s - (c.cutEnd - c.cutStart) - c.crossfade
  | none => trimmedLength a s

/-- Modelled from the spec: the spec-level invariants validated before any
process spawn (paragraphs 3 and 4.4), missing with `backend/server.py`:
window containment (trim inside the asset, cut-middle strictly inside the
trim window), crossfade smaller than each adjoining segment, fade durations
within the timeline they apply to. -/
def validateSpec (a : MediaAsset) (s : AudioEditSpec) : Bool :=
  decide (0 ≤ (trimBounds a s).1) &&
  decide ((trimBounds a s).1 < (trimBounds a s).2) &&
  decide ((trimBounds a s).2 ≤ a.duration) &&
  (match s.cutMiddle with
   | some c =>
     decide ((trimBounds a s).1 < c.cutStart) &&
     decide (c.cutStart < c.cutEnd) &&
     decide (c.cutEnd < (trimBounds a s).2) &&
     decide (0 ≤ c.crossfade) &&
     decide (c.crossfade < c.cutStart - (trimBounds a s).1) &&
     decide (c.crossfade < (trimBounds a s).2 - c.cutEnd)
   | none => true) &&
  (!s.fadeIn.enabled || decide (s.fadeIn.duration ≤ finalDuration a s)) &&
  (!s.fadeOut.enabled || decide (s.fadeOut.duration ≤ finalDuration a s))

/-- Modelled from the spec: one transform stage of the compiled sequence
(paragraph 4.4), missing with `backend/server.py`.  Splice and fade offsets
are relative to the trimmed range; `fadeOutRamp` carries the start offset on
the final spliced timeline. -/
inductive Stage where
  | extractAudio : Stage
  | trimTo : Int → Int → Stage
  | spliceCrossfade : Int → Int → Int → Stage
  | spliceConcat : Int → Int → Stage
  | fadeInRamp : Int → Stage
  | fadeOutRamp : Int → Int → Stage
  | convert : Nat → Nat → Int → Stage
  | encode : String → String → Stage
  | passthrough : String → Stage
  deriving DecidableEq

/-- Position of each stage kind in the fixed order of paragraph 4.4 (both
splice forms are step 3; encode and lossless pass-through are step 6). -/
def Stage.rank : Stage → Nat
  | .extractAudio => 0
  | .trimTo _ _ => 1
  | .spliceCrossfade _ _ _ => 2
  | .spliceConcat _ _ => 2
  | .fadeInRamp _ => 3
  | .fadeOutRamp _ _ => 4
  | .convert _ _ _ => 5
  | .encode _ _ => 6
  | .passthrough _ => 6

/-- Step 1 of paragraph 4.4: extract the audio-only stream first when the
asset is a container without a prior extraction. -/
def extractionStages (a : MediaAsset) : List Stage :=
  if a.isContainer && !a.hasAudioExtraction then [Stage.extractAudio] else []

/-- Step 2 of paragraph 4.4: the trim window, if present, before any other
edit. -/
def trimStages (s : AudioEditSpec) : List Stage :=
  match s.trim with
  | some t => [Stage.trimTo t.start t.stop]
  | none => []

/-- Step 3 of paragraph 4.4: the cut-middle splice, with offsets relative to
the trimmed range; crossfade overlap when the crossfade duration is positive,
direct concatenation when it is zero. -/
def cutStages (a : MediaAsset) (s : AudioEditSpec) : List Stage :=
  match s.cutMiddle with
  | some c =>
    if 0 < c.crossfade then
      [Stage.spliceCrossfade (c.cutStart - (trimBounds a s).1)
        (c.cutEnd - (trimBounds a s).1) c.crossfade]
    else
      [Stage.spliceConcat (c.cutStart - (trimBounds a s).1)
        (c.cutEnd - (trimBounds a s).1)]
  | none => []

/-- Step 4 of paragraph 4.4, fade-in: ramp over fadeInDuration from the start
of the final spliced timeline. -/
def fadeInStages (s : AudioEditSpec) : List Stage :=
  if s.fadeIn.enabled then [Stage.fadeInRamp s.fadeIn.duration] else []

/-- Step 4 of paragraph 4.4, fade-out: ramp over fadeOutDuration to the end
of the final spliced timeline (so it starts at `finalDuration - duration`,
not at a pre-cut boundary). -/
def fadeOutStages (a : MediaAsset) (s : AudioEditSpec) : List Stage :=
  if s.fadeOut.enabled then
    [Stage.fadeOutRamp (finalDuration a s - s.fadeOut.duration) s.fadeOut.duration]
  else []

/-- Step 6 of paragraph 4.4: encode to the requested codec/bitrate, or pass
samples through unmodified for a lossless codec. -/
def encodeStage (s : AudioEditSpec) : Stage :=
  if s.lossless then Stage.passthrough s.codec else Stage.encode s.codec s.bitrate

/-- Modelled from the spec: the ordered stage list of paragraph 4.4, missing
with `backend/server.py` (step 5 is the channel/sample-rate/volume
conversion). -/
def compileStages (a : MediaAsset) (s : AudioEditSpec) : List Stage :=
  extractionStages a ++ trimStages s ++ cutStages a s ++
    fadeInStages s ++ fadeOutStages a s ++
    [Stage.convert s.channels s.sampleRate s.volumeGain, encodeStage s]

/-- Modelled from the spec: compilation validates every spec-level invariant
before producing stages; violation yields InvalidEditSpec (paragraph 4.4). -/
def compile (a : MediaAsset) (s : AudioEditSpec) : Except ErrKind (List Stage) :=
  if validateSpec a s then .ok (compileStages a s) else .error .invalidEditSpec

/-- Modelled from the spec: submission of an edit task, missing with
`backend/server.py`.  The second component lists the external process
invocations spawned: the compiled stage list is handed atomically to the
Process Runner as one invocation (paragraph 4.4), and a validation failure
spawns nothing (zero external side effects, never a partial run). -/
def submitEdit (a : MediaAsset) (s : AudioEditSpec) :
    Except ErrKind (List Stage) × List (List Stage) :=
  match compile a s with
  | .error e => (.error e, [])
  | .ok stages => (.ok stages, [stages])

/-! ### Download Executor (spec paragraph 4.3) -/

/-- Modelled from the spec: the FormatDescriptor of paragraph 3, missing with
`backend/server.py`. -/
structure FormatDescriptor where
  format_id : String
  quality : String
  has_video : Bool
  has_audio : Bool
  resolution : String
  filesize : String
  deriving DecidableEq

/-- Modelled from the spec: the output of one Format Prober call
(paragraph 4.1). -/
structure ProbeResult where
  title : String
  duration : Int
  formats : List FormatDescriptor
  deriving DecidableEq

/-- Modelled from the spec: a download request as received from the client;
`clientFormats` is the client-held format metadata, which the executor must
never trust (paragraph 4.3 step 1 uses only the id). -/
structure DownloadRequest where
  url : String
  format_id : String
  clientFormats : List FormatDescriptor
  deriving DecidableEq

/-- Modelled from the spec: the terminal outcome of the Process Runner
(paragraph 4.5): success with an output path, failure with a stderr tail, or
a wall-clock-ceiling breach. -/
inductive ProcOutcome where
  | finished : String → ProcOutcome
  | failed : String → ProcOutcome
  | timedOut : ProcOutcome
  deriving DecidableEq

/-- Step 1 of paragraph 4.3: re-resolve the requested format id against a
fresh probe. -/
def resolveFormat (probe : ProbeResult) (fid : String) : Option FormatDescriptor :=
  probe.formats.find? (fun f => f.format_id == fid)

/-- Modelled from the spec: the sequence of task-record states a fetch task
passes through (paragraphs 4.3 and 7), missing with `backend/server.py`.  An
id absent from the fresh probe is surfaced before dispatch as an immediate
terminal ERROR; otherwise the worker runs the Process Runner (outcome
`proc`) and finalizes. -/
def downloadTrace (probe : ProbeResult) (req : DownloadRequest) (proc : ProcOutcome) :
    List TaskRecord :=
  let r0 := TaskRecord.init
  match resolveFormat probe req.format_id with
  | none => [r0, applyOp r0 (.fail .formatNotFound)]
  | some _ =>
    let r1 := applyOp r0 .start
    match proc with
    | .finished p => [r0, r1, applyOp r1 (.complete p)]
    | .failed _ => [r0, r1, applyOp r1 (.fail .toolFailure)]
    | .timedOut => [r0, r1, applyOp r1 (.fail .timedOut)]

/-! ### Per-asset edit lock (spec paragraphs 3 and 5) -/

/-- Modelled from the spec: the state the edit entry point works on, missing
with `backend/server.py`: the set of asset ids with an in-flight edit task,
a fresh-id counter, and the task records created so far. -/
structure EditSystem where
  inFlight : List String
  nextId : Nat
  tasks : List (Nat × TaskRecord)
  deriving DecidableEq

/-- Modelled from the spec: the `process(asset_id, spec)` entry point's
concurrency rule (paragraphs 3, 5 and 8, Scenario C), missing with
`backend/server.py`: a second edit request against an asset already being
processed is rejected with Busy, not queued, and changes nothing; otherwise
a fresh task is created and the asset is marked in flight. -/
def processCall (sys : EditSystem) (assetId : String) : Except ErrKind Nat × EditSystem :=
  if assetId ∈ sys.inFlight then (.error .busy, sys)
  else
    (.ok sys.nextId,
      { inFlight := assetId :: sys.inFlight,
        nextId := sys.nextId + 1,
        tasks := (sys.nextId, TaskRecord.init) :: sys.tasks })

/-! ### Cleanup Manager (spec paragraph 4.6) -/

/-- Modelled from the spec: the state the Cleanup Manager works on, missing
with `backend/server.py`: task records keyed by id, and the ids whose
artifact is currently on disk. -/
structure CleanupState where
  tasks : List (String × TaskRecord)
  artifacts : List String
  deriving DecidableEq

/-- Modelled from the spec: `cleanup(task_id)` (paragraphs 4.2 and 4.6),
missing with `backend/server.py`: deleting the artifact of a still-RUNNING
task is rejected with Busy and executes nothing; an unknown id succeeds
silently (idempotent delete, never NotFound); otherwise the record and the
artifact are removed. -/
def cleanup (st : CleanupState) (tid : String) : Except ErrKind Unit × CleanupState :=
  match st.tasks.lookup tid with
  | some r =>
    if r.status = .running then (.error .busy, st)
    else
      (.ok (),
        { tasks := st.tasks.filter (fun p => p.1 != tid),
          artifacts := st.artifacts.filter (fun x => x != tid) })
  | none => (.ok (), st)

end Backend

/-! ## Helper lemmas -/

theorem lookup_filter_ne (l : List (String × Backend.TaskRecord)) (tid : String) :
    (l.filter (fun p => p.1 != tid)).lookup tid = none := by
  induction l with
  | nil => rfl
  | cons p l ih =>
    by_cases h : p.1 = tid
    · simp [List.filter_cons, h, ih]
    · have hb : (p.1 != tid) = true := by simp [h]
      have hk : (tid == p.1) = false := by
        simp [Ne.symm h]
      simp [List.filter_cons, hb, List.lookup, hk, ih]

/-! ## Claim theorems -/

/-- C6: for every media asset, at most one edit task is in flight at a time: a
`process` call on an idle asset succeeds, and a second call against the same
asset while the first is still in flight is rejected with Busy (not queued)
and leaves the system state — including the first call's task — unchanged, so
the first task proceeds uninterrupted. -/
theorem second_edit_request_busy (sys : Backend.EditSystem) (assetId : String)
    (h : assetId ∉ sys.inFlight) :
    (Backend.processCall sys assetId).1 = .ok sys.nextId ∧
    (Backend.processCall (Backend.processCall sys assetId).2 assetId).1
      = Except.error Backend.ErrKind.busy ∧
    (Backend.processCall (Backend.processCall sys assetId).2 assetId).2
      = (Backend.processCall sys assetId).2 := by
  simp [Backend.processCall, h]

/-- Witness for C6 at a concrete system state. -/
theorem second_edit_request_busy_witness :
    (Backend.processCall (Backend.processCall ⟨[], 0, []⟩ "asset1").2 "asset1").1
      = Except.error Backend.ErrKind.busy :=
  (second_edit_request_busy ⟨[], 0, []⟩ "asset1" (by simp)).2.1

/-- C7: `cleanup` on a task id whose task is RUNNING returns Busy, executes
nothing (the state is unchanged), and in particular the task's artifact stays
on disk. -/
theorem cleanup_running_busy (st : Backend.CleanupState) (tid : String)
    (r : Backend.TaskRecord) (h : st.tasks.lookup tid = some r)
    (hr : r.status = .running) :
    Backend.cleanup st tid = (Except.error Backend.ErrKind.busy, st) ∧
    (tid ∈ st.artifacts → tid ∈ (Backend.cleanup st tid).2.artifacts) := by
  constructor
  · simp [Backend.cleanup, h, hr]
  · intro hm
    simp [Backend.cleanup, h, hr, hm]

/-- Witness for C7 at a concrete state with a running task and its artifact. -/
theorem cleanup_running_busy_witness :
    Backend.cleanup
        ⟨[("t1", Backend.TaskRecord.mk Backend.Status.running 50 "" none none)], ["t1"]⟩ "t1"
      = (Except.error Backend.ErrKind.busy,
         ⟨[("t1", Backend.TaskRecord.mk Backend.Status.running 50 "" none none)], ["t1"]⟩) :=
  (cleanup_running_busy _ "t1" _ (by rfl) (by rfl)).1

/-- C8: `cleanup` on a task id unknown to the registry (never created, or
already deleted) succeeds silently without touching the state — never
NotFound — so duplicate client cleanup calls on one id are tolerated: a
repeated call also succeeds, and cleaning up a known non-running task leaves
its id unknown, after which cleanup is again a silent success. -/
theorem cleanup_unknown_idempotent (st : Backend.CleanupState) (tid : String)
    (h : st.tasks.lookup tid = none) :
    Backend.cleanup st tid = (Except.ok (), st) ∧
    Backend.cleanup (Backend.cleanup st tid).2 tid = (Except.ok (), (Backend.cleanup st tid).2) ∧
    (∀ st2 : Backend.CleanupState, ∀ r : Backend.TaskRecord,
      st2.tasks.lookup tid = some r → r.status ≠ .running →
      (Backend.cleanup st2 tid).2.tasks.lookup tid = none ∧
      Backend.cleanup (Backend.cleanup st2 tid).2 tid
        = (Except.ok (), (Backend.cleanup st2 tid).2)) := by
  refine ⟨by simp [Backend.cleanup, h], by simp [Backend.cleanup, h], ?_⟩
  intro st2 r h2 hr
  have hst : (Backend.cleanup st2 tid).2
      = ⟨st2.tasks.filter (fun p => p.1 != tid), st2.artifacts.filter (fun x => x != tid)⟩ := by
    simp [Backend.cleanup, h2, hr]
  have hgone : (Backend.cleanup st2 tid).2.tasks.lookup tid = none := by
    rw [hst]
    exact lookup_filter_ne _ _
  refine ⟨hgone, ?_⟩
  generalize hgen : (Backend.cleanup st2 tid).2 = s3 at hgone ⊢
  simp [Backend.cleanup, hgone]

/-- Witness for C8 at a concrete state that does not know the id. -/
theorem cleanup_unknown_idempotent_witness :
    Backend.cleanup (⟨[], ["t9"]⟩ : Backend.CleanupState) "t2"
      = (Except.ok (), (⟨[], ["t9"]⟩ : Backend.CleanupState)) :=
  (cleanup_unknown_idempotent ⟨[], ["t9"]⟩ "t2" (by rfl)).1

theorem applyOp_invariant (r : Backend.TaskRecord) (o : Backend.RegOp)
    (h100 : r.progress ≤ 100) (hiff : r.progress = 100 ↔ r.status = .ready) :
    (Backend.applyOp r o).progress ≤ 100 ∧
    ((Backend.applyOp r o).progress = 100 ↔ (Backend.applyOp r o).status = .ready) ∧
    r.progress ≤ (Backend.applyOp r o).progress := by
  cases o with
  | start =>
    by_cases hq : r.status = .queued
    · have hne : r.progress ≠ 100 := fun hp => by
        rw [hiff.mp hp] at hq
        exact Backend.Status.noConfusion hq
      simp [Backend.applyOp, hq]
      exact ⟨h100, hne⟩
    · simp [Backend.applyOp, hq, h100, hiff]
  | update p m =>
    by_cases hrun : r.status = .running
    · have hne : r.progress ≠ 100 := fun hp => by
        rw [hiff.mp hp] at hrun
        exact Backend.Status.noConfusion hrun
      simp [Backend.applyOp, hrun]
      omega
    · simp [Backend.applyOp, hrun, h100, hiff]
  | complete res =>
    by_cases hrun : r.status = .running
    · simp [Backend.applyOp, hrun, h100]
    · simp [Backend.applyOp, hrun, h100, hiff]
  | fail e =>
    by_cases hqr : r.status = .queued ∨ r.status = .running
    · have hnr : r.status ≠ .ready := by
        rcases hqr with hq | hq <;> rw [hq] <;> exact fun hp => Backend.Status.noConfusion hp
      have hne : r.progress ≠ 100 := fun hp => hnr (hiff.mp hp)
      simp [Backend.applyOp, hqr, h100, hne]
    · simp [Backend.applyOp, hqr, h100, hiff]

theorem foldl_invariant (l : List Backend.RegOp) (r : Backend.TaskRecord)
    (h100 : r.progress ≤ 100) (hiff : r.progress = 100 ↔ r.status = .ready) :
    (l.foldl Backend.applyOp r).progress ≤ 100 ∧
    ((l.foldl Backend.applyOp r).progress = 100 ↔ (l.foldl Backend.applyOp r).status = .ready) ∧
    r.progress ≤ (l.foldl Backend.applyOp r).progress := by
  induction l generalizing r with
  | nil => exact ⟨h100, hiff, Nat.le_refl _⟩
  | cons o l ih =>
    obtain ⟨s100, siff, sle⟩ := applyOp_invariant r o h100 hiff
    obtain ⟨f100, fiff, fle⟩ := ih (Backend.applyOp r o) s100 siff
    exact ⟨f100, fiff, Nat.le_trans sle fle⟩

theorem runOps_invariant (ops : List Backend.RegOp) :
    (Backend.runOps ops).progress ≤ 100 ∧
    ((Backend.runOps ops).progress = 100 ↔ (Backend.runOps ops).status = .ready) := by
  have h := foldl_invariant ops Backend.TaskRecord.init (by simp [Backend.TaskRecord.init])
    (by simp [Backend.TaskRecord.init])
  exact ⟨h.1, h.2.1⟩

/-- C3: once a task is terminal, exactly one of status=ready and status=error
holds — never both — and, at every point of the task's life, progress=100
holds exactly when status=ready.  Quantified over every op sequence the
single writer may perform from task creation. -/
theorem terminal_status_exclusive (ops : List Backend.RegOp) :
    ¬((Backend.runOps ops).status = .ready ∧ (Backend.runOps ops).status = .error) ∧
    (((Backend.runOps ops).status = .ready ∨ (Backend.runOps ops).status = .error) →
      ((Backend.runOps ops).status = .ready ↔ ¬(Backend.runOps ops).status = .error)) ∧
    ((Backend.runOps ops).progress = 100 ↔ (Backend.runOps ops).status = .ready) := by
  refine ⟨?_, ?_, (runOps_invariant ops).2⟩
  · rintro ⟨h1, h2⟩
    rw [h1] at h2
    exact Backend.Status.noConfusion h2
  · intro hterm
    constructor
    · intro h1 h2
      rw [h1] at h2
      exact Backend.Status.noConfusion h2
    · intro hne
      rcases hterm with h | h
      · exact h
      · exact absurd h hne

/-- Witness for C3: a task driven to READY through a normal run. -/
theorem terminal_status_exclusive_witness :
    (Backend.runOps [Backend.RegOp.start, Backend.RegOp.update 40 "downloading",
        Backend.RegOp.complete "out.mp4"]).progress = 100 ↔
    (Backend.runOps [Backend.RegOp.start, Backend.RegOp.update 40 "downloading",
        Backend.RegOp.complete "out.mp4"]).status = .ready :=
  (terminal_status_exclusive _).2.2

/-- C4: the progress values a poller observes across repeated polls of one
task are non-decreasing until (and including when) the task terminates, and
every value is an integer between 0 and 100.  A poll after `i` writer ops and
a later poll after `j ≥ i` ops see non-decreasing values, because the task has
a single writer performing the sequence `ops`. -/
theorem progress_monotone (ops : List Backend.RegOp) (i j : Nat) (hij : i ≤ j) :
    (Backend.runOps (ops.take i)).progress ≤ (Backend.runOps (ops.take j)).progress ∧
    (Backend.runOps (ops.take j)).progress ≤ 100 := by
  have htake : (ops.take j).take i = ops.take i := by
    rw [List.take_take, Nat.min_eq_left hij]
  have hsplit : Backend.runOps (ops.take j)
      = ((ops.take j).drop i).foldl Backend.applyOp (Backend.runOps (ops.take i)) := by
    conv_lhs => rw [Backend.runOps, ← List.take_append_drop i (ops.take j)]
    rw [List.foldl_append, htake]
    rfl
  have hbase := runOps_invariant (ops.take i)
  have h := foldl_invariant ((ops.take j).drop i) (Backend.runOps (ops.take i)) hbase.1 hbase.2
  rw [hsplit]
  exact ⟨h.2.2, h.1⟩

/-- Witness for C4: polls after 1 and 3 ops of a concrete writer sequence. -/
theorem progress_monotone_witness :
    (Backend.runOps ([Backend.RegOp.start, Backend.RegOp.update 30 "a",
        Backend.RegOp.update 70 "b"].take 1)).progress ≤
      (Backend.runOps ([Backend.RegOp.start, Backend.RegOp.update 30 "a",
        Backend.RegOp.update 70 "b"].take 3)).progress ∧
    (Backend.runOps ([Backend.RegOp.start, Backend.RegOp.update 30 "a",
        Backend.RegOp.update 70 "b"].take 3)).progress ≤ 100 :=
  progress_monotone _ 1 3 (by decide)

/-- C5: a fetch request whose format id is absent from the fresh probe fails
immediately with FormatNotFound: the final task record is ERROR with that
kind, no record in the task's whole trace is RUNNING, and — since only the
id is re-resolved — the trace is independent of whatever format metadata the
client supplied. -/
theorem format_not_found_before_running (probe : Backend.ProbeResult)
    (req : Backend.DownloadRequest) (proc : Backend.ProcOutcome)
    (h : ∀ f ∈ probe.formats, f.format_id ≠ req.format_id) :
    (∀ r ∈ Backend.downloadTrace probe req proc, r.status ≠ Backend.Status.running) ∧
    (∃ rl, (Backend.downloadTrace probe req proc).getLast? = some rl ∧
      rl.status = Backend.Status.error ∧ rl.errorKind = some Backend.ErrKind.formatNotFound) ∧
    (∀ cf : List Backend.FormatDescriptor,
      Backend.downloadTrace probe ⟨req.url, req.format_id, cf⟩ proc
        = Backend.downloadTrace probe req proc) := by
  have hres : Backend.resolveFormat probe req.format_id = none := by
    rw [Backend.resolveFormat, List.find?_eq_none]
    intro f hf
    simp [h f hf]
  have htr : Backend.downloadTrace probe req proc
      = [Backend.TaskRecord.init,
         Backend.applyOp Backend.TaskRecord.init (.fail .formatNotFound)] := by
    unfold Backend.downloadTrace
    rw [hres]
  refine ⟨?_, ?_, ?_⟩
  · intro r hr
    rw [htr] at hr
    simp at hr
    rcases hr with h1 | h1 <;> rw [h1] <;>
      simp [Backend.TaskRecord.init, Backend.applyOp]
  · exact ⟨Backend.applyOp Backend.TaskRecord.init (.fail .formatNotFound),
      by rw [htr]; rfl, by rfl, by rfl⟩
  · intro cf
    cases req
    rfl

/-- Witness for C5: probe returning only format "720p", request for "144p" —
the trace does not depend on the client-held format metadata. -/
theorem format_not_found_before_running_witness :
    Backend.downloadTrace ⟨"t", 10, [⟨"720p", "hd", true, true, "1280x720", "10MB"⟩]⟩
        ⟨"u", "144p", [⟨"144p", "low", true, false, "256x144", "1MB"⟩]⟩
        Backend.ProcOutcome.timedOut
      = Backend.downloadTrace ⟨"t", 10, [⟨"720p", "hd", true, true, "1280x720", "10MB"⟩]⟩
          ⟨"u", "144p", []⟩ Backend.ProcOutcome.timedOut :=
  (format_not_found_before_running
      ⟨"t", 10, [⟨"720p", "hd", true, true, "1280x720", "10MB"⟩]⟩
      ⟨"u", "144p", []⟩ Backend.ProcOutcome.timedOut (by decide)).2.2
    [⟨"144p", "low", true, false, "256x144", "1MB"⟩]

/-- C2: an AudioEditSpec whose crossfade duration is greater than or equal to
the length of either segment adjoining the cut-middle window is rejected at
submission with InvalidEditSpec and spawns no external process; and in
general any spec failing validation spawns nothing — validation happens
before any process spawn, so a rejected submission has zero external side
effects. -/
theorem crossfade_too_long_rejected (a : Backend.MediaAsset) (s : Backend.AudioEditSpec)
    (c : Backend.CutWindow) (hc : s.cutMiddle = some c)
    (hcf : c.cutStart - (Backend.trimBounds a s).1 ≤ c.crossfade ∨
           (Backend.trimBounds a s).2 - c.cutEnd ≤ c.crossfade) :
    Backend.submitEdit a s = (Except.error Backend.ErrKind.invalidEditSpec, []) ∧
    (∀ a2 : Backend.MediaAsset, ∀ s2 : Backend.AudioEditSpec,
      Backend.validateSpec a2 s2 = false → (Backend.submitEdit a2 s2).2 = []) := by
  have hval : Backend.validateSpec a s = false := by
    rw [Backend.validateSpec, hc]
    rcases hcf with hseg | hseg
    · have : ¬(c.crossfade < c.cutStart - (Backend.trimBounds a s).1) := not_lt.mpr hseg
      simp [this]
    · have : ¬(c.crossfade < (Backend.trimBounds a s).2 - c.cutEnd) := not_lt.mpr hseg
      simp [this]
  constructor
  · rw [Backend.submitEdit, Backend.compile, hval]
    rfl
  · intro a2 s2 h2
    rw [Backend.submitEdit, Backend.compile, h2]
    rfl

/-- Witness for C2: a 10-second asset, trim [0,10], cut [2,3], crossfade 2 —
the crossfade equals segment A's length, so submission is rejected with no
spawn. -/
theorem crossfade_too_long_rejected_witness :
    Backend.submitEdit
        ⟨"a1", "/tmp/a1", 10, false, false⟩
        ⟨"mp3", "192k", false, some ⟨0, 10⟩, ⟨false, 3⟩, ⟨false, 3⟩,
          some ⟨2, 3, 2⟩, 2, 44100, 1⟩
      = (Except.error Backend.ErrKind.invalidEditSpec, []) :=
  (crossfade_too_long_rejected _ _ ⟨2, 3, 2⟩ rfl (by left; decide)).1

theorem extraction_rank (a : Backend.MediaAsset) :
    ∀ x ∈ Backend.extractionStages a, Backend.Stage.rank x = 0 := by
  unfold Backend.extractionStages
  split <;> simp [Backend.Stage.rank]

theorem trim_rank (s : Backend.AudioEditSpec) :
    ∀ x ∈ Backend.trimStages s, Backend.Stage.rank x = 1 := by
  unfold Backend.trimStages
  split <;> simp [Backend.Stage.rank]

theorem cut_rank (a : Backend.MediaAsset) (s : Backend.AudioEditSpec) :
    ∀ x ∈ Backend.cutStages a s, Backend.Stage.rank x = 2 := by
  unfold Backend.cutStages
  split
  · split <;> simp [Backend.Stage.rank]
  · simp

theorem fadeIn_rank (s : Backend.AudioEditSpec) :
    ∀ x ∈ Backend.fadeInStages s, Backend.Stage.rank x = 3 := by
  unfold Backend.fadeInStages
  split <;> simp [Backend.Stage.rank]

theorem fadeOut_rank (a : Backend.MediaAsset) (s : Backend.AudioEditSpec) :
    ∀ x ∈ Backend.fadeOutStages a s, Backend.Stage.rank x = 4 := by
  unfold Backend.fadeOutStages
  split <;> simp [Backend.Stage.rank]

theorem encodeStage_rank (s : Backend.AudioEditSpec) :
    Backend.Stage.rank (Backend.encodeStage s) = 6 := by
  unfold Backend.encodeStage
  split <;> rfl

theorem pairwise_rank_append (l1 l2 : List Backend.Stage) (n : Nat)
    (h1 : ∀ x ∈ l1, Backend.Stage.rank x ≤ n) (h2 : ∀ x ∈ l2, n ≤ Backend.Stage.rank x)
    (p1 : l1.Pairwise (fun x y => Backend.Stage.rank x ≤ Backend.Stage.rank y))
    (p2 : l2.Pairwise (fun x y => Backend.Stage.rank x ≤ Backend.Stage.rank y)) :
    (l1 ++ l2).Pairwise (fun x y => Backend.Stage.rank x ≤ Backend.Stage.rank y) := by
  rw [List.pairwise_append]
  exact ⟨p1, p2, fun x hx y hy => Nat.le_trans (h1 x hx) (h2 y hy)⟩

theorem compileStages_pairwise (a : Backend.MediaAsset) (s : Backend.AudioEditSpec) :
    (Backend.compileStages a s).Pairwise
      (fun x y => Backend.Stage.rank x ≤ Backend.Stage.rank y) := by
  have pe : (Backend.extractionStages a).Pairwise
      (fun x y => Backend.Stage.rank x ≤ Backend.Stage.rank y) := by
    unfold Backend.extractionStages
    split <;> simp
  have pt : (Backend.trimStages s).Pairwise
      (fun x y => Backend.Stage.rank x ≤ Backend.Stage.rank y) := by
    unfold Backend.trimStages
    split <;> simp
  have pc : (Backend.cutStages a s).Pairwise
      (fun x y => Backend.Stage.rank x ≤ Backend.Stage.rank y) := by
    unfold Backend.cutStages
    split
    · split <;> simp
    · simp
  have pf1 : (Backend.fadeInStages s).Pairwise
      (fun x y => Backend.Stage.rank x ≤ Backend.Stage.rank y) := by
    unfold Backend.fadeInStages
    split <;> simp
  have pf2 : (Backend.fadeOutStages a s).Pairwise
      (fun x y => Backend.Stage.rank x ≤ Backend.Stage.rank y) := by
    unfold Backend.fadeOutStages
    split <;> simp
  have hconv : Backend.Stage.rank
      (Backend.Stage.convert s.channels s.sampleRate s.volumeGain) = 5 := rfl
  have ptail : ([Backend.Stage.convert s.channels s.sampleRate s.volumeGain,
      Backend.encodeStage s]).Pairwise
      (fun x y => Backend.Stage.rank x ≤ Backend.Stage.rank y) := by
    simp [List.pairwise_cons, hconv, encodeStage_rank s]
  rw [Backend.compileStages]
  simp only [List.append_assoc]
  apply pairwise_rank_append _ _ 0 (fun x hx => Nat.le_of_eq (extraction_rank a x hx))
    (fun x _ => Nat.zero_le _) pe
  apply pairwise_rank_append _ _ 1 (fun x hx => Nat.le_of_eq (trim_rank s x hx)) ?_ pt
  · apply pairwise_rank_append _ _ 2 (fun x hx => Nat.le_of_eq (cut_rank a s x hx)) ?_ pc
    · apply pairwise_rank_append _ _ 3 (fun x hx => Nat.le_of_eq (fadeIn_rank s x hx)) ?_ pf1
      · apply pairwise_rank_append _ _ 4 (fun x hx => Nat.le_of_eq (fadeOut_rank a s x hx)) ?_
          pf2 ptail
        intro x hx
        simp only [List.mem_cons, List.not_mem_nil, or_false] at hx
        rcases hx with rfl | rfl
        · exact by simp [Backend.Stage.rank]
        · rw [encodeStage_rank s]
          omega
      · intro x hx
        rw [List.mem_append] at hx
        rcases hx with hx | hx
        · rw [fadeOut_rank a s x hx]
          omega
        · simp only [List.mem_cons, List.not_mem_nil, or_false] at hx
          rcases hx with rfl | rfl
          · exact by simp [Backend.Stage.rank]
          · rw [encodeStage_rank s]
            omega
    · intro x hx
      rw [List.mem_append] at hx
      rcases hx with hx | hx
      · rw [fadeIn_rank s x hx]
        omega
      · rw [List.mem_append] at hx
        rcases hx with hx | hx
        · rw [fadeOut_rank a s x hx]
          omega
        · simp only [List.mem_cons, List.not_mem_nil, or_false] at hx
          rcases hx with rfl | rfl
          · exact by simp [Backend.Stage.rank]
          · rw [encodeStage_rank s]
            omega
  · intro x hx
    rw [List.mem_append] at hx
    rcases hx with hx | hx
    · rw [cut_rank a s x hx]
      omega
    · rw [List.mem_append] at hx
      rcases hx with hx | hx
      · rw [fadeIn_rank s x hx]
        omega
      · rw [List.mem_append] at hx
        rcases hx with hx | hx
        · rw [fadeOut_rank a s x hx]
          omega
        · simp only [List.mem_cons, List.not_mem_nil, or_false] at hx
          rcases hx with rfl | rfl
          · exact by simp [Backend.Stage.rank]
          · rw [encodeStage_rank s]
            omega

theorem getLast_append_pair (l : List Backend.Stage) (x y : Backend.Stage) :
    (l ++ [x, y]).getLast? = some y := by
  rw [show l ++ [x, y] = (l ++ [x]) ++ [y] by simp]
  exact List.getLast?_concat _

/-- C1: every AudioEditSpec passing validation (cut-middle strictly inside
the trim window, crossfade shorter than both adjoining segments, fades within
the timeline) compiles to a non-empty stage list in the fixed order of spec
paragraph 4.4: audio extraction first for a container without prior
extraction, then the trim window before any other edit, then the cut-middle
splice (crossfade overlap when the duration is positive, direct concatenation
when it is zero, offsets relative to the trimmed range), then fade-in and
fade-out against the final spliced timeline, then
channel/sample-rate/volume conversion, and encoding (or lossless
pass-through) last. -/
theorem audio_edit_compiler_stage_order (a : Backend.MediaAsset)
    (s : Backend.AudioEditSpec) (hv : Backend.validateSpec a s = true) :
    Backend.compile a s = Except.ok (Backend.compileStages a s) ∧
    Backend.compileStages a s ≠ [] ∧
    (Backend.compileStages a s).Pairwise
      (fun x y => Backend.Stage.rank x ≤ Backend.Stage.rank y) ∧
    (a.isContainer = true → a.hasAudioExtraction = false →
      (Backend.compileStages a s).head? = some Backend.Stage.extractAudio) ∧
    (∀ t : Backend.TrimWindow, s.trim = some t →
      Backend.Stage.trimTo t.start t.stop ∈ Backend.compileStages a s) ∧
    (∀ c : Backend.CutWindow, s.cutMiddle = some c →
      (0 < c.crossfade →
        Backend.Stage.spliceCrossfade (c.cutStart - (Backend.trimBounds a s).1)
          (c.cutEnd - (Backend.trimBounds a s).1) c.crossfade
          ∈ Backend.compileStages a s) ∧
      (c.crossfade = 0 →
        Backend.Stage.spliceConcat (c.cutStart - (Backend.trimBounds a s).1)
          (c.cutEnd - (Backend.trimBounds a s).1) ∈ Backend.compileStages a s)) ∧
    (s.fadeIn.enabled = true →
      Backend.Stage.fadeInRamp s.fadeIn.duration ∈ Backend.compileStages a s) ∧
    (s.fadeOut.enabled = true →
      Backend.Stage.fadeOutRamp (Backend.finalDuration a s - s.fadeOut.duration)
        s.fadeOut.duration ∈ Backend.compileStages a s) ∧
    Backend.Stage.convert s.channels s.sampleRate s.volumeGain
      ∈ Backend.compileStages a s ∧
    (Backend.compileStages a s).getLast? = some (Backend.encodeStage s) := by
  refine ⟨?_, ?_, compileStages_pairwise a s, ?_, ?_, ?_, ?_, ?_, ?_, ?_⟩
  · rw [Backend.compile, if_pos hv]
  · intro hnil
    have hlen := congrArg List.length hnil
    simp [Backend.compileStages] at hlen
  · intro h1 h2
    have he : Backend.extractionStages a = [Backend.Stage.extractAudio] := by
      simp [Backend.extractionStages, h1, h2]
    simp [Backend.compileStages, he]
  · intro t ht
    have : Backend.trimStages s = [Backend.Stage.trimTo t.start t.stop] := by
      simp [Backend.trimStages, ht]
    simp [Backend.compileStages, this]
  · intro c hc
    constructor
    · intro hcf
      have : Backend.cutStages a s
          = [Backend.Stage.spliceCrossfade (c.cutStart - (Backend.trimBounds a s).1)
              (c.cutEnd - (Backend.trimBounds a s).1) c.crossfade] := by
        simp [Backend.cutStages, hc, hcf]
      simp [Backend.compileStages, this]
    · intro hcf
      have hnlt : ¬(0 < c.crossfade) := by
        rw [hcf]
        exact lt_irrefl 0
      have : Backend.cutStages a s
          = [Backend.Stage.spliceConcat (c.cutStart - (Backend.trimBounds a s).1)
              (c.cutEnd - (Backend.trimBounds a s).1)] := by
        simp [Backend.cutStages, hc, hnlt]
      simp [Backend.compileStages, this]
  · intro hf
    have : Backend.fadeInStages s = [Backend.Stage.fadeInRamp s.fadeIn.duration] := by
      simp [Backend.fadeInStages, hf]
    simp [Backend.compileStages, this]
  · intro hf
    have : Backend.fadeOutStages a s
        = [Backend.Stage.fadeOutRamp (Backend.finalDuration a s - s.fadeOut.duration)
            s.fadeOut.duration] := by
      simp [Backend.fadeOutStages, hf]
    simp [Backend.compileStages, this]
  · simp [Backend.compileStages]
  · rw [Backend.compileStages]
    exact getLast_append_pair _ _ _

/-- Witness for C1: a 10-second container asset without prior extraction,
trim [0,10], cut [2,3] with crossfade 1, both fades 1 second, mp3 at 192k. -/
theorem audio_edit_compiler_stage_order_witness :
    Backend.compile ⟨"a1", "/tmp/a1", 10, true, false⟩
        ⟨"mp3", "192k", false, some ⟨0, 10⟩, ⟨true, 1⟩, ⟨true, 1⟩,
          some ⟨2, 3, 1⟩, 2, 44100, 1⟩
      = Except.ok (Backend.compileStages ⟨"a1", "/tmp/a1", 10, true, false⟩
          ⟨"mp3", "192k", false, some ⟨0, 10⟩, ⟨true, 1⟩, ⟨true, 1⟩,
            some ⟨2, 3, 1⟩, 2, 44100, 1⟩) ∧
    (Backend.compileStages ⟨"a1", "/tmp/a1", 10, true, false⟩
        ⟨"mp3", "192k", false, some ⟨0, 10⟩, ⟨true, 1⟩, ⟨true, 1⟩,
          some ⟨2, 3, 1⟩, 2, 44100, 1⟩).head? = some Backend.Stage.extractAudio :=
  ⟨(audio_edit_compiler_stage_order _ _ (by decide)).1,
   (audio_edit_compiler_stage_order _ _ (by decide)).2.2.2.1 rfl rfl⟩

theorem pollAux_count_le (statuses : Nat → Polling.StatusResp) (fuel : Nat) :
    ∀ attempts, (Polling.pollAux statuses attempts fuel).2 ≤ fuel := by
  induction fuel with
  | zero => intro attempts; exact Nat.le_refl 0
  | succ n ih =>
    intro attempts
    rw [Polling.pollAux]
    by_cases hr : (statuses (attempts + 1)).ready = true
    · simp [hr]
    · by_cases he : (statuses (attempts + 1)).isError = true
      · simp [hr, he]
      · simp [hr, he]
        exact ih (attempts + 1)

theorem pollAux_timeout (statuses : Nat → Polling.StatusResp) (fuel : Nat) :
    ∀ attempts,
      (∀ i, attempts < i → i ≤ attempts + fuel →
        (statuses i).ready = false ∧ (statuses i).isError = false) →
      (Polling.pollAux statuses attempts fuel).1 = .timeoutThrown := by
  induction fuel with
  | zero => intro attempts _; rfl
  | succ n ih =>
    intro attempts h
    have hhere := h (attempts + 1) (Nat.lt_succ_self attempts) (by omega)
    rw [Polling.pollAux]
    simp [hhere.1, hhere.2]
    exact ih (attempts + 1) (fun i h1 h2 => h i (by omega) (by omega))

/-- C10: both client polling loops terminate.  `handleDownload` in
HomePage.js issues at most 120 status requests and `handleProcess` in
AudioEditor.js at most 60, each preceded by a 5000 ms delay; and when the
task is neither ready nor in error throughout the bound, the loop ends by
throwing the timeout error instead of polling forever. -/
theorem polling_loops_bounded (st1 st2 : Nat → Polling.StatusResp) :
    (Polling.handleDownloadPoll st1).2 ≤ 120 ∧
    (Polling.handleProcessPoll st2).2 ≤ 60 ∧
    Polling.pollIntervalMs = 5000 ∧
    ((∀ i, 1 ≤ i → i ≤ 120 → (st1 i).ready = false ∧ (st1 i).isError = false) →
      (Polling.handleDownloadPoll st1).1 = .timeoutThrown) ∧
    ((∀ i, 1 ≤ i → i ≤ 60 → (st2 i).ready = false ∧ (st2 i).isError = false) →
      (Polling.handleProcessPoll st2).1 = .timeoutThrown) := by
  refine ⟨pollAux_count_le st1 120 0, pollAux_count_le st2 60 0, rfl, ?_, ?_⟩
  · intro h
    exact pollAux_timeout st1 120 0 (fun i h1 h2 => h i (by omega) (by omega))
  · intro h
    exact pollAux_timeout st2 60 0 (fun i h1 h2 => h i (by omega) (by omega))

/-- Witness for C10: a task that never becomes ready and never errors — both
loops throw the timeout error after their bounded number of polls. -/
theorem polling_loops_bounded_witness :
    (Polling.handleDownloadPoll (fun _ => ⟨false, false, 0, ""⟩)).1 = .timeoutThrown ∧
    (Polling.handleProcessPoll (fun _ => ⟨false, false, 0, ""⟩)).1 = .timeoutThrown :=
  ⟨(polling_loops_bounded (fun _ => ⟨false, false, 0, ""⟩)
      (fun _ => ⟨false, false, 0, ""⟩)).2.2.2.1 (fun _ _ _ => ⟨rfl, rfl⟩),
   (polling_loops_bounded (fun _ => ⟨false, false, 0, ""⟩)
      (fun _ => ⟨false, false, 0, ""⟩)).2.2.2.2 (fun _ _ _ => ⟨rfl, rfl⟩)⟩

theorem mem_of_mem_dropWhile (p : Char → Bool) (c : Char) :
    ∀ l : List Char, c ∈ l.dropWhile p → c ∈ l := by
  intro l
  induction l with
  | nil => simp [List.dropWhile]
  | cons a t ih =>
    rw [List.dropWhile_cons]
    by_cases hp : p a = true
    · simp [hp]
      intro h
      exact Or.inr (ih h)
    · simp [hp]

theorem mem_of_mem_jsTrim (c : Char) (l : List Char) (h : c ∈ HomePage.jsTrim l) : c ∈ l := by
  rw [HomePage.jsTrim, List.mem_reverse] at h
  have h2 := mem_of_mem_dropWhile _ _ _ h
  rw [List.mem_reverse] at h2
  exact mem_of_mem_dropWhile _ _ _ h2

theorem mem_collapseWhitespace (c : Char) :
    ∀ l : List Char, c ∈ HomePage.collapseWhitespace l →
      c = '_' ∨ (HomePage.isJsWhitespace c = false ∧ c ∈ l) := by
  intro l
  induction l with
  | nil => simp [HomePage.collapseWhitespace]
  | cons a t ih =>
    cases t with
    | nil =>
      rw [HomePage.collapseWhitespace]
      by_cases ha : HomePage.isJsWhitespace a = true
      · simp [ha]
        intro h
        exact Or.inl h
      · simp [ha]
        intro h
        subst h
        exact Or.inr ⟨Bool.eq_false_iff.mpr ha, by simp⟩
    | cons b t2 =>
      rw [HomePage.collapseWhitespace]
      by_cases ha : HomePage.isJsWhitespace a = true
      · by_cases hb : HomePage.isJsWhitespace b = true
        · simp [ha, hb]
          intro h
          rcases ih h with h1 | ⟨h1, h2⟩
          · exact Or.inl h1
          · refine Or.inr ⟨h1, ?_⟩
            simp only [List.mem_cons] at h2 ⊢
            exact Or.inr h2
        · simp [ha, hb]
          intro h
          rcases h with h | h
          · exact Or.inl h
          · rcases ih h with h1 | ⟨h1, h2⟩
            · exact Or.inl h1
            · refine Or.inr ⟨h1, ?_⟩
              simp only [List.mem_cons] at h2 ⊢
              exact Or.inr h2
      · simp [ha]
        intro h
        rcases h with h | h
        · subst h
          exact Or.inr ⟨Bool.eq_false_iff.mpr ha, by simp⟩
        · rcases ih h with h1 | ⟨h1, h2⟩
          · exact Or.inl h1
          · refine Or.inr ⟨h1, ?_⟩
            simp only [List.mem_cons] at h2 ⊢
            exact Or.inr h2

theorem toLower_eq_of_not_upper (c : Char) (h : ¬(65 ≤ c.toNat ∧ c.toNat ≤ 90)) :
    Char.toLower c = c := by
  rw [Char.toLower, if_neg h]

theorem toLower_toNat_of_upper (c : Char) (h : 65 ≤ c.toNat ∧ c.toNat ≤ 90) :
    (Char.toLower c).toNat = c.toNat + 32 := by
  rw [Char.toLower, if_pos h]
  have hv : (c.toNat + 32).isValidChar := by
    left
    omega
  rw [Char.ofNat, dif_pos hv]
  rfl

theorem safe_toLower (c : Char)
    (h : HomePage.isAsciiAlnum c = true ∨ c = '_') :
    HomePage.isSafeFilenameChar (Char.toLower c) := by
  rcases h with h | h
  · rw [HomePage.isAsciiAlnum] at h
    simp only [Bool.or_eq_true, Bool.and_eq_true, decide_eq_true_eq] at h
    rcases h with (⟨h1, h2⟩ | ⟨h1, h2⟩) | ⟨h1, h2⟩
    · have hn1 : 97 ≤ c.toNat := h1
      have hn2 : c.toNat ≤ 122 := h2
      rw [toLower_eq_of_not_upper c (by omega)]
      exact Or.inl ⟨h1, h2⟩
    · have hn1 : 65 ≤ c.toNat := h1
      have hn2 : c.toNat ≤ 90 := h2
      have ht := toLower_toNat_of_upper c ⟨hn1, hn2⟩
      have hlo : 97 ≤ (Char.toLower c).toNat := by omega
      have hhi : (Char.toLower c).toNat ≤ 122 := by omega
      exact Or.inl ⟨hlo, hhi⟩
    · have hn1 : 48 ≤ c.toNat := h1
      have hn2 : c.toNat ≤ 57 := h2
      rw [toLower_eq_of_not_upper c (by omega)]
      exact Or.inr (Or.inl ⟨h1, h2⟩)
  · subst h
    rw [toLower_eq_of_not_upper _ (by decide)]
    exact Or.inr (Or.inr rfl)

/-- C9: for every video title (empty, whitespace-only, path separators,
diacritics, anything), the filename base computed by `handleDownload` in
HomePage.js consists only of lowercase ASCII letters, digits and underscores,
is at most 100 characters long, is never empty, falls back to `"video"` when
the sanitized title is empty, and contains no path separator — so nothing
from the title can escape into the `custom_filename` query parameter.
Quantified over every possible NFD normalizer. -/
theorem filename_base_sanitized (nfd : String → String) (title : String) :
    HomePage.downloadFilenameBase nfd title ≠ "" ∧
    (HomePage.downloadFilenameBase nfd title).length ≤ 100 ∧
    (∀ c ∈ (HomePage.downloadFilenameBase nfd title).data, HomePage.isSafeFilenameChar c) ∧
    (HomePage.cleanTitle nfd title = "" → HomePage.downloadFilenameBase nfd title = "video") ∧
    '/' ∉ (HomePage.downloadFilenameBase nfd title).data ∧
    '\\' ∉ (HomePage.downloadFilenameBase nfd title).data := by
  have hchar : ∀ c ∈ (HomePage.cleanTitle nfd title).data, HomePage.isSafeFilenameChar c := by
    intro c hc
    have hdata : (HomePage.cleanTitle nfd title).data
        = (((HomePage.collapseWhitespace (HomePage.jsTrim
            ((((nfd (if title = "" then "video" else title)).data.filter
              (fun x => !HomePage.isCombiningMark x)).map HomePage.replaceDStroke).filter
              (fun x => HomePage.isAsciiAlnum x || HomePage.isJsWhitespace x)))).map
            Char.toLower).take 100) := rfl
    rw [hdata] at hc
    have h1 := List.take_subset _ _ hc
    rw [List.mem_map] at h1
    obtain ⟨d, hd, rfl⟩ := h1
    rcases mem_collapseWhitespace d _ hd with h2 | ⟨h2, h3⟩
    · subst h2
      exact safe_toLower _ (Or.inr rfl)
    · have h4 := mem_of_mem_jsTrim d _ h3
      rw [List.mem_filter] at h4
      have h5 := h4.2
      rw [h2] at h5
      simp only [Bool.or_false] at h5
      exact safe_toLower d (Or.inl h5)
  have hlen : (HomePage.cleanTitle nfd title).length ≤ 100 := by
    have : (HomePage.cleanTitle nfd title).length
        = (((HomePage.collapseWhitespace (HomePage.jsTrim
            ((((nfd (if title = "" then "video" else title)).data.filter
              (fun x => !HomePage.isCombiningMark x)).map HomePage.replaceDStroke).filter
              (fun x => HomePage.isAsciiAlnum x || HomePage.isJsWhitespace x)))).map
            Char.toLower).take 100).length := rfl
    rw [this]
    simp [List.length_take]
  by_cases h : HomePage.cleanTitle nfd title = ""
  · have hb : HomePage.downloadFilenameBase nfd title = "video" := by
      rw [HomePage.downloadFilenameBase]
      simp [h]
    rw [hb]
    refine ⟨by decide, by decide, by decide, fun _ => rfl, by decide, by decide⟩
  · have hb : HomePage.downloadFilenameBase nfd title = HomePage.cleanTitle nfd title := by
      rw [HomePage.downloadFilenameBase]
      simp [h]
    rw [hb]
    refine ⟨h, hlen, hchar, fun hh => absurd hh h, ?_, ?_⟩
    · intro hmem
      exact absurd (hchar _ hmem) (by decide)
    · intro hmem
      exact absurd (hchar _ hmem) (by decide)

/-- Witness for C9: a title of pure punctuation sanitizes to the empty string
and the base falls back to `"video"`; the theorem is applied at the identity
normalizer. -/
theorem filename_base_sanitized_witness :
    HomePage.downloadFilenameBase (fun x => x) "@@/..\\!!" = "video" :=
  (filename_base_sanitized (fun x => x) "@@/..\\!!").2.2.2.1 (by decide)

end DLVideo
